import Mathlib

/-!
Verification development for the `balls` continuous collision simulation.

The Rust source is shallowly embedded: 2D `f32`/`f64` vectors become exact
real-valued vectors (`Vec2`), the narrow-phase solvers of
`src/collision/solvers.rs`, the broad-phase and event handling of
`src/collision/collision.rs`, and the kinematic advance of `src/advance.rs`
become Lean functions over that model.  Entity/component lookups
(`world.entry_ref(..).unwrap()`) are modelled by total maps from entity ids,
reflecting the source contract that every entity referenced by a pending
event still exists (missing entities are a fatal precondition violation,
not a behaviour of this core).
-/

/-- 2D vector over the reals, embedding nalgebra's `Vector2<f32>`/`Vector2<f64>`
(float arithmetic is modelled exactly). -/
structure Vec2 where
  x : ℝ
  y : ℝ

namespace Vec2

instance : Add Vec2 := ⟨fun a b => ⟨a.x + b.x, a.y + b.y⟩⟩

instance : Sub Vec2 := ⟨fun a b => ⟨a.x - b.x, a.y - b.y⟩⟩

instance : Neg Vec2 := ⟨fun a => ⟨-a.x, -a.y⟩⟩

instance : SMul ℝ Vec2 := ⟨fun r v => ⟨r * v.x, r * v.y⟩⟩

instance : Zero Vec2 := ⟨⟨0, 0⟩⟩

@[simp] theorem add_x (a b : Vec2) : (a + b).x = a.x + b.x := rfl

@[simp] theorem add_y (a b : Vec2) : (a + b).y = a.y + b.y := rfl

@[simp] theorem sub_x (a b : Vec2) : (a - b).x = a.x - b.x := rfl

@[simp] theorem sub_y (a b : Vec2) : (a - b).y = a.y - b.y := rfl

@[simp] theorem neg_x (a : Vec2) : (-a).x = -a.x := rfl

@[simp] theorem neg_y (a : Vec2) : (-a).y = -a.y := rfl

@[simp] theorem smul_x (r : ℝ) (v : Vec2) : (r • v).x = r * v.x := rfl

@[simp] theorem smul_y (r : ℝ) (v : Vec2) : (r • v).y = r * v.y := rfl

@[simp] theorem mk_x (a b : ℝ) : (Vec2.mk a b).x = a := rfl

@[simp] theorem mk_y (a b : ℝ) : (Vec2.mk a b).y = b := rfl

theorem ext_iff {a b : Vec2} : a = b ↔ a.x = b.x ∧ a.y = b.y := by
  constructor
  · rintro rfl; exact ⟨rfl, rfl⟩
  · rintro ⟨hx, hy⟩; cases a; cases b; simp_all

/-- nalgebra `dot`. -/
def dot (a b : Vec2) : ℝ := a.x * b.x + a.y * b.y

/-- nalgebra `inf`: componentwise minimum. -/
def inf (a b : Vec2) : Vec2 := ⟨min a.x b.x, min a.y b.y⟩

/-- nalgebra `sup`: componentwise maximum. -/
def sup (a b : Vec2) : Vec2 := ⟨max a.x b.x, max a.y b.y⟩

/-- nalgebra `add_scalar`. -/
def add_scalar (a : Vec2) (s : ℝ) : Vec2 := ⟨a.x + s, a.y + s⟩

/-- nalgebra `norm`. -/
noncomputable def norm (v : Vec2) : ℝ := Real.sqrt (v.dot v)

/-- nalgebra `normalize`: `v / ‖v‖`. -/
noncomputable def normalize (v : Vec2) : Vec2 := ⟨v.x / v.norm, v.y / v.norm⟩

theorem dot_nonneg (v : Vec2) : 0 ≤ v.dot v := by
  have hx : (0:ℝ) ≤ v.x * v.x := mul_self_nonneg _
  have hy : (0:ℝ) ≤ v.y * v.y := mul_self_nonneg _
  simpa [dot] using add_nonneg hx hy

theorem norm_sq (v : Vec2) : v.norm * v.norm = v.dot v := by
  simpa [norm] using Real.mul_self_sqrt (dot_nonneg v)

theorem norm_nonneg (v : Vec2) : 0 ≤ v.norm := Real.sqrt_nonneg _

theorem norm_neg (v : Vec2) : (-v).norm = v.norm := by
  simp [norm, dot]

theorem norm_smul (r : ℝ) (v : Vec2) : (r • v).norm = |r| * v.norm := by
  have : (r • v).dot (r • v) = (r * r) * v.dot v := by simp [dot]; ring
  simp only [norm, this]
  rw [Real.sqrt_mul (mul_self_nonneg r), Real.sqrt_mul_self_eq_abs]

end Vec2

/-- `Ball` component (`src/ball.rs`) together with the `collision_generation`
counter that the collision code stores on it (`src/collision/collision.rs`
reads and bumps `ball.collision_generation`).  The render-only `color` field
is omitted: no collision code reads or writes it. -/
structure Ball where
  position : Vec2
  velocity : Vec2
  radius : ℝ
  initial_time : ℝ
  collision_generation : ℤ

/-- `Wall` component (`src/wall.rs`). -/
structure Wall where
  p0 : Vec2
  p1 : Vec2

/-- `Wall::normal` (`src/wall.rs`): unit normal of `p1 - p0`. -/
noncomputable def Wall.normal (w : Wall) : Vec2 :=
  let diff := w.p1 - w.p0
  Vec2.normalize ⟨-diff.y, diff.x⟩

/-- `EPSILON` (`src/collision/collidable.rs`). -/
noncomputable def EPSILON : ℝ := 1/100000

/-- `CELL_SIZE` (`src/collision/collision.rs`). -/
noncomputable def CELL_SIZE : ℝ := 20

/-- A trail segment recorded by `advance_single_ball` (`src/ball.rs`). -/
structure Trail where
  position0 : Vec2
  position1 : Vec2
  initial_time : ℝ
  final_time : ℝ

/-- Kinematic advance of one ball: constant-velocity extrapolation, pinning
`initial_time` to the target time.  This is the ball mutation performed by
`advance_single_ball` (`src/advance.rs`) and shared by the collision
resolvers. -/
noncomputable def advanceBall (b : Ball) (next_time : ℝ) : Ball :=
  { b with
    position := b.position + (next_time - b.initial_time) • b.velocity
    initial_time := next_time }

/-- `advance_single_ball` (`src/advance.rs`): advances the ball and records
the traversed segment into the trail log when time actually moves forward. -/
noncomputable def advance_single_ball (b : Ball) (trails : List Trail) (next_time : ℝ) :
    Ball × List Trail :=
  let new_position := b.position + (next_time - b.initial_time) • b.velocity
  ({ b with position := new_position, initial_time := next_time },
   if next_time > b.initial_time then
     trails ++ [⟨b.position, new_position, b.initial_time, next_time⟩]
   else trails)

/-- `Collidable` (`src/collision/collidable.rs`): tagged union dispatching
ball vs wall. -/
inductive Collidable where
  | ball (b : Ball)
  | wall (w : Wall)

/-- `solve_collision_ball_wall` (`src/collision/solvers.rs`): treats the wall
as an infinite line through `p0` with unit normal `n`; returns the absolute
times at which the signed distance reaches `radius` (entry) and `0` (touch),
or `none` when `d*a >= 0` (moving away or parallel). -/
noncomputable def solve_collision_ball_wall (ball : Ball) (wall : Wall) :
    Option (ℝ × ℝ) :=
  let normal := wall.normal
  let a := normal.dot ball.velocity
  let d := normal.dot (ball.position - wall.p0)
  if d * a ≥ 0 then none
  else
    let b0 := d - ball.radius
    let b1 := d
    some (-b0 / a + ball.initial_time, -b1 / a + ball.initial_time)

/-- `solve_collision_ball_ball` (`src/collision/solvers.rs`): solves the
quadratic `‖Δp(t)‖² = (r0+r1)²` in absolute time; rejects separating pairs
(`dv⬝dx > -EPSILON`) and negative discriminants; otherwise returns the first
root and the vertex time.  (The source's trailing `delta`/`println!` block is
debug output with no effect on the returned value.) -/
noncomputable def solve_collision_ball_ball (ball other_ball : Ball) :
    Option (ℝ × ℝ) :=
  let dv := ball.velocity - other_ball.velocity
  let dx := ball.position - other_ball.position
  let affine0 := ball.position - ball.initial_time • ball.velocity
  let affine1 := other_ball.position - other_ball.initial_time • other_ball.velocity
  let affine := affine0 - affine1
  let proj := dv.dot dx
  if proj > -EPSILON then none
  else
    let a := dv.dot dv
    let b := dv.dot affine * 2
    let c := affine.dot affine - (ball.radius + other_ball.radius) * (ball.radius + other_ball.radius)
    let disc := b * b - 4 * a * c
    if disc < 0 then none
    else
      let sqrt_disc := Real.sqrt disc
      some ((-b - sqrt_disc) / (2 * a), -b / (2 * a))

/-- `solve_collision` dispatch (`src/collision/solvers.rs`): ball–ball,
ball–wall (in either order), wall–wall is always `none`. -/
noncomputable def solve_collision : Collidable → Collidable → Option (ℝ × ℝ)
  | .ball b0, .ball b1 => solve_collision_ball_ball b0 b1
  | .ball b, .wall w => solve_collision_ball_wall b w
  | .wall w, .ball b => solve_collision_ball_wall b w
  | .wall _, .wall _ => none

/-- `CollisionType` (`src/collision/collision.rs`). -/
inductive CollisionType where
  | ball
  | wall
deriving DecidableEq

/-- `GenerationalCollisionEntity` (`src/collision/collision.rs`): an entity
reference snapshot together with its collision type and the generation at
which it was registered.  Entities are modelled by natural-number ids. -/
structure GenerationalCollisionEntity where
  entity : ℕ
  collision_type : CollisionType
  generation : ℤ
deriving DecidableEq

/-- `GenerationalCollisionEntity::next` (`src/collision/collision.rs`): bump
the generation for balls, keep walls unchanged. -/
def GenerationalCollisionEntity.next (e : GenerationalCollisionEntity) :
    GenerationalCollisionEntity :=
  match e.collision_type with
  | .ball => { e with generation := e.generation + 1 }
  | .wall => e

/-- The entity/component world visible to the collision systems: total maps
from entity id to the `Ball` / `Wall` component.  Totality models the
source's `unwrap` contract (every referenced entity exists). -/
structure World where
  balls : ℕ → Ball
  walls : ℕ → Wall

/-- `fetch_collidable_copy` (`src/collision/collision.rs`): reads the
component selected by the snapshot's collision type. -/
def fetch_collidable_copy (world : World) (e : GenerationalCollisionEntity) :
    Collidable :=
  match e.collision_type with
  | .ball => .ball (world.balls e.entity)
  | .wall => .wall (world.walls e.entity)

/-- `write_collidable` (`src/collision/collision.rs`): overwrites the
component matching the collidable's variant. -/
def write_collidable (world : World) (entity : ℕ) (c : Collidable) : World :=
  match c with
  | .ball b => { world with balls := fun n => if n = entity then b else world.balls n }
  | .wall w => { world with walls := fun n => if n = entity then w else world.walls n }

/-- `CollisionDetectionData` (`src/collision/collision.rs`).  The spatial hash
is a map from grid cell to the set of registered snapshots; `last_box`
remembers each snapshot's registered cell range; the priority queue is
modelled by its key-to-priority map (the `priority_queue` crate's `push`
inserts or updates the key's priority). -/
structure CollisionDetectionData where
  spatial_buckets : ℤ × ℤ → Finset GenerationalCollisionEntity
  last_box : GenerationalCollisionEntity → Option (ℤ × ℤ × ℤ × ℤ)
  collisions_events : GenerationalCollisionEntity × GenerationalCollisionEntity → Option ℝ

/-- The cleared state produced at the start of each detection pass. -/
def CollisionDetectionData.empty : CollisionDetectionData where
  spatial_buckets := fun _ => ∅
  last_box := fun _ => none
  collisions_events := fun _ => none

/-- `get_cell_range_for_movement` (`src/collision/collision.rs`): swept
axis-aligned bounding box of the collidable over the window ending at
`next_time`, converted to a clamped half-open grid cell range
`(i0, i1, j0, j1)`. -/
noncomputable def get_cell_range_for_movement (c : Collidable) (next_time : ℝ) :
    ℤ × ℤ × ℤ × ℤ :=
  let mm : Vec2 × Vec2 :=
    match c with
    | .ball ball =>
      let time_delta := next_time - ball.initial_time
      let new_position := ball.position + time_delta • ball.velocity
      ((ball.position.inf new_position).add_scalar (-ball.radius - EPSILON),
       (ball.position.sup new_position).add_scalar (ball.radius + EPSILON))
    | .wall wall =>
      ((wall.p0.inf wall.p1).add_scalar (-EPSILON),
       wall.p0.sup (wall.p1.add_scalar EPSILON))
  (max 0 ⌊mm.1.x / CELL_SIZE⌋,
   min 100 ⌈mm.2.x / CELL_SIZE⌉ + 1,
   max 0 ⌊mm.1.y / CELL_SIZE⌋,
   min 100 ⌈mm.2.y / CELL_SIZE⌉ + 1)

/-- The set of grid cells covered by a cell range (the source's
`for i in i0..i1 { for j in j0..j1 { .. } }` iteration space). -/
def rangeCells (r : ℤ × ℤ × ℤ × ℤ) : Finset (ℤ × ℤ) :=
  Finset.Ico r.1 r.2.1 ×ˢ Finset.Ico r.2.2.1 r.2.2.2

/-- `segments_intersect` (`src/collision/collision.rs`):
closed-interval intersection test, `x1 >= y0 && y1 >= x0`. -/
def segments_intersect (x : ℝ × ℝ) (y : ℝ × ℝ) : Prop :=
  x.2 ≥ y.1 ∧ y.2 ≥ x.1

noncomputable instance (x y : ℝ × ℝ) : Decidable (segments_intersect x y) := by
  unfold segments_intersect; infer_instance

/-- The candidate set collected by `CollisionDetectionData::add`: all
occupants of the cells covered by the added collidable's range.  (The
source's loop collects each cell's occupants before inserting the new entity
into that cell; since the iterated cells are pairwise distinct this equals
the union of the pre-add occupant sets.) -/
def addCandidates (cdd : CollisionDetectionData) (r : ℤ × ℤ × ℤ × ℤ) :
    Finset GenerationalCollisionEntity :=
  (rangeCells r).sup cdd.spatial_buckets

/-- Rust `f32::clamp`. -/
noncomputable def clampR (x lo hi : ℝ) : ℝ := min (max x lo) hi

/-- `CollisionDetectionData::add` (`src/collision/collision.rs`): record the
cell range in `last_box`, insert the snapshot into every covered bucket,
and for every distinct candidate found in those buckets solve the
narrow-phase; push an event keyed by `(entity, candidate)` with priority
`-t0.clamp(time, next_time)` when the solved interval passes
`segments_intersect` against `(time, next_time)`. -/
noncomputable def CollisionDetectionData.add (cdd : CollisionDetectionData)
    (world : World) (entity : GenerationalCollisionEntity) (c : Collidable)
    (time next_time : ℝ) : CollisionDetectionData :=
  let r := get_cell_range_for_movement c next_time
  let results := addCandidates cdd r
  { spatial_buckets := fun cell =>
      if cell ∈ rangeCells r then insert entity (cdd.spatial_buckets cell)
      else cdd.spatial_buckets cell
    last_box := fun e => if e = entity then some r else cdd.last_box e
    collisions_events := fun k =>
      if k.1 = entity ∧ k.2 ∈ results then
        match solve_collision c (fetch_collidable_copy world k.2) with
        | some (t0, t1) =>
          if segments_intersect (t0, t1) (time, next_time) then
            some (-(clampR t0 time next_time))
          else cdd.collisions_events k
        | none => cdd.collisions_events k
      else cdd.collisions_events k }

/-- `CollisionDetectionData::remove` (`src/collision/collision.rs`): erase the
snapshot from every cell of its recorded range; no-op when unregistered. -/
def CollisionDetectionData.remove (cdd : CollisionDetectionData)
    (entity : GenerationalCollisionEntity) : CollisionDetectionData :=
  match cdd.last_box entity with
  | none => cdd
  | some r =>
    { spatial_buckets := fun cell =>
        if cell ∈ rangeCells r then (cdd.spatial_buckets cell).erase entity
        else cdd.spatial_buckets cell
      last_box := fun e => if e = entity then none else cdd.last_box e
      collisions_events := cdd.collisions_events }

/-- `collide_ball_wall` (`src/collision/collision.rs`): advance the ball to
the collision time, bump its generation, reflect the velocity about the wall
normal only when still approaching (`v·n < 0`); the wall slot of the result
is always `none`. -/
noncomputable def collide_ball_wall (ball : Ball) (wall : Wall) (t : ℝ) :
    Option Collidable × Option Collidable :=
  let new_ball := advanceBall ball t
  let normal := wall.normal
  let new_ball := { new_ball with collision_generation := new_ball.collision_generation + 1 }
  let proj := ball.velocity.dot normal
  let new_ball :=
    if proj < 0 then { new_ball with velocity := new_ball.velocity - (2 * proj) • normal }
    else new_ball
  (some (.ball new_ball), none)

/-- `collide_ball_ball` (`src/collision/collision.rs`): advance both balls to
the collision time, bump both generations, and when still approaching apply
the elastic impulse with area mass `r²`, capping each resulting speed at
1000. -/
noncomputable def collide_ball_ball (ball other_ball : Ball) (t : ℝ) :
    Option Collidable × Option Collidable :=
  let ball0 := advanceBall ball t
  let ball1 := advanceBall other_ball t
  let ball0 := { ball0 with collision_generation := ball0.collision_generation + 1 }
  let ball1 := { ball1 with collision_generation := ball1.collision_generation + 1 }
  let mass0 := ball0.radius * ball0.radius
  let mass1 := ball1.radius * ball1.radius
  let dx := ball0.position - ball1.position
  let dv := ball0.velocity - ball1.velocity
  let proj := dv.dot dx
  if proj < 0 then
    let d2 := dx.dot dx
    let a := (2 / (mass0 + mass1) * proj / d2) • dx
    let v0 := ball0.velocity - mass1 • a
    let v0 := if v0.norm > 1000 then (1000 / v0.norm) • v0 else v0
    let v1 := ball1.velocity + mass0 • a
    let v1 := if v1.norm > 1000 then (1000 / v1.norm) • v1 else v1
    (some (.ball { ball0 with velocity := v0 }),
     some (.ball { ball1 with velocity := v1 }))
  else
    (some (.ball ball0), some (.ball ball1))

/-- `collide` (`src/collision/collision.rs`): generation-validated dispatch.
Any referenced ball whose current generation differs from the event snapshot
makes the whole event a `none` (silent discard); wall–wall is always
`none`. -/
noncomputable def collide (c : Collidable) (generation : ℤ) (other : Collidable)
    (other_generation : ℤ) (t : ℝ) :
    Option (Option Collidable × Option Collidable) :=
  match c with
  | .ball ball =>
    if ball.collision_generation ≠ generation then none
    else
      match other with
      | .ball other_ball =>
        if other_ball.collision_generation ≠ other_generation then none
        else some (collide_ball_ball ball other_ball t)
      | .wall wall => some (collide_ball_wall ball wall t)
  | .wall wall =>
    match other with
    | .ball ball =>
      if ball.collision_generation ≠ other_generation then none
      else
        let res := collide_ball_wall ball wall t
        some (res.2, res.1)
    | .wall _ => none

/-- One iteration of the `collision_handle` loop
(`src/collision/collision.rs`), applied to the event just popped from the
queue (entity pair plus its collision time): fetch both collidables,
run `collide`, and for each updated body `remove` its old registration,
write it back into the world, and `add` it again under its next generation
over the remaining window `[collision_time, next_time]`. -/
noncomputable def handle_event (next_time : ℝ) (world : World)
    (cdd : CollisionDetectionData)
    (e0 e1 : GenerationalCollisionEntity) (collision_time : ℝ) :
    World × CollisionDetectionData :=
  let collidable0 := fetch_collidable_copy world e0
  let collidable1 := fetch_collidable_copy world e1
  match collide collidable0 e0.generation collidable1 e1.generation collision_time with
  | none => (world, cdd)
  | some (new_collidable0, new_collidable1) =>
    let step0 : World × CollisionDetectionData :=
      match new_collidable0 with
      | some c =>
        let cdd := cdd.remove e0
        let world := write_collidable world e0.entity c
        (world, cdd.add world e0.next c collision_time next_time)
      | none => (world, cdd)
    match new_collidable1 with
    | some c =>
      let cdd := step0.2.remove e1
      let world := write_collidable step0.1 e1.entity c
      (world, cdd.add world e1.next c collision_time next_time)
    | none => step0

/-- The handling pass over a given sequence of popped events (the
`collision_handle` drain loop, with the pop order abstracted as the list of
popped events). -/
noncomputable def handle_events (next_time : ℝ) (world : World)
    (cdd : CollisionDetectionData)
    (evs : List (GenerationalCollisionEntity × GenerationalCollisionEntity × ℝ)) :
    World × CollisionDetectionData :=
  evs.foldl (fun s ev => handle_event next_time s.1 s.2 ev.1 ev.2.1 ev.2.2) (world, cdd)

/-- The detection pass (`collision` system, `src/collision/collision.rs`):
starting from cleared data, register every live collidable in turn via
`add` over the frame window. -/
noncomputable def detect (world : World)
    (items : List (GenerationalCollisionEntity × Collidable))
    (time next_time : ℝ) : CollisionDetectionData :=
  items.foldl (fun cdd it => cdd.add world it.1 it.2 time next_time)
    CollisionDetectionData.empty

/-- Advancing an already-advanced ball to a later target collapses to the
direct advance: constant-velocity extrapolation composes. -/
theorem advanceBall_advanceBall (b : Ball) (s t : ℝ) :
    advanceBall (advanceBall b s) t = advanceBall b t := by
  cases b with
  | mk p v r t0 g =>
    simp [advanceBall, Ball.mk.injEq, Vec2.ext_iff]
    constructor <;> ring

/-- The ball component of `advance_single_ball` is `advanceBall`. -/
theorem advance_single_ball_fst (b : Ball) (tr : List Trail) (t : ℝ) :
    (advance_single_ball b tr t).1 = advanceBall b t := rfl

/-- Iterated advance through a list of intermediate times
(`advance_single_ball` applied in sequence, threading the trail log). -/
noncomputable def advance_through (b : Ball) (trails : List Trail) (ts : List ℝ) :
    Ball × List Trail :=
  ts.foldl (fun s t => advance_single_ball s.1 s.2 t) (b, trails)

theorem advance_through_ball (ts : List ℝ) (t2 : ℝ) :
    ∀ (b : Ball) (tr : List Trail),
      (advance_through b tr (ts ++ [t2])).1 = advanceBall b t2 := by
  induction ts with
  | nil => intro b tr; rfl
  | cons s rest ih =>
    intro b tr
    have h1 : advance_through b tr ((s :: rest) ++ [t2]) =
        advance_through (advance_single_ball b tr s).1 (advance_single_ball b tr s).2
          (rest ++ [t2]) := rfl
    rw [h1, ih, advance_single_ball_fst, advanceBall_advanceBall]

/-- C8: Advance is time-linear: for every ball and every monotone chain of
target times `initial_time <= t_1 <= ... <= t_n <= t2` (a finite partition of
the interval), advancing through the intermediate times and then to `t2`
yields the same final position and `initial_time` as advancing directly to
`t2` in one step; in particular this holds for the two-step split
`t2 >= t1 >= initial_time`. -/
theorem advance_time_linear (b : Ball) (tr : List Trail) (ts : List ℝ) (t2 : ℝ)
    (_hchain : List.Chain (· ≤ ·) b.initial_time (ts ++ [t2])) :
    ((advance_through b tr (ts ++ [t2])).1).position =
        ((advance_single_ball b tr t2).1).position ∧
    ((advance_through b tr (ts ++ [t2])).1).initial_time =
        ((advance_single_ball b tr t2).1).initial_time := by
  rw [advance_through_ball, advance_single_ball_fst]
  exact ⟨rfl, rfl⟩

/-- Witness for C8: splitting the advance of a concrete ball at time 1 on the
way to time 2 agrees with the direct advance. -/
theorem advance_time_linear_witness :
    List.Chain (· ≤ ·) (Ball.mk ⟨0, 0⟩ ⟨3, 4⟩ 1 0 0).initial_time ([1] ++ [2]) ∧
    ((advance_through (Ball.mk ⟨0, 0⟩ ⟨3, 4⟩ 1 0 0) [] ([1] ++ [2])).1).position =
        ((advance_single_ball (Ball.mk ⟨0, 0⟩ ⟨3, 4⟩ 1 0 0) [] 2).1).position ∧
    ((advance_through (Ball.mk ⟨0, 0⟩ ⟨3, 4⟩ 1 0 0) [] ([1] ++ [2])).1).initial_time =
        ((advance_single_ball (Ball.mk ⟨0, 0⟩ ⟨3, 4⟩ 1 0 0) [] 2).1).initial_time := by
  have hchain : List.Chain (· ≤ ·) (Ball.mk ⟨0, 0⟩ ⟨3, 4⟩ 1 0 0).initial_time ([1] ++ [2]) := by
    norm_num [List.chain_cons]
  exact ⟨hchain, advance_time_linear (Ball.mk ⟨0, 0⟩ ⟨3, 4⟩ 1 0 0) [] [1] 2 hchain⟩

theorem collide_first_ball_mismatch (b : Ball) (g : ℤ) (other : Collidable)
    (og : ℤ) (t : ℝ) (h : b.collision_generation ≠ g) :
    collide (.ball b) g other og t = none := by
  cases other <;> simp [collide, h]

theorem collide_second_ball_mismatch (c : Collidable) (g : ℤ) (b : Ball)
    (og : ℤ) (t : ℝ) (h : b.collision_generation ≠ og) :
    collide c g (.ball b) og t = none := by
  cases c with
  | ball b0 =>
    by_cases h0 : b0.collision_generation = g
    · simp [collide, h0, h]
    · simp [collide, h0]
  | wall w => simp [collide, h]

/-- C1: a popped event whose generation snapshot differs from the current
generation of either referenced ball is discarded as a silent no-op: the
world (every ball and wall component) and the collision-detection data
(spatial hash, `last_box`, event queue) are returned exactly as they were
after the pop itself. -/
theorem generation_mismatch_silent_noop (next_time : ℝ) (world : World)
    (cdd : CollisionDetectionData) (e0 e1 : GenerationalCollisionEntity) (t : ℝ)
    (h : (e0.collision_type = .ball ∧
            (world.balls e0.entity).collision_generation ≠ e0.generation) ∨
         (e1.collision_type = .ball ∧
            (world.balls e1.entity).collision_generation ≠ e1.generation)) :
    handle_event next_time world cdd e0 e1 t = (world, cdd) := by
  have hnone : collide (fetch_collidable_copy world e0) e0.generation
      (fetch_collidable_copy world e1) e1.generation t = none := by
    rcases h with ⟨hty, hgen⟩ | ⟨hty, hgen⟩
    · have hf : fetch_collidable_copy world e0 = .ball (world.balls e0.entity) := by
        simp [fetch_collidable_copy, hty]
      rw [hf]
      exact collide_first_ball_mismatch _ _ _ _ _ hgen
    · have hf : fetch_collidable_copy world e1 = .ball (world.balls e1.entity) := by
        simp [fetch_collidable_copy, hty]
      rw [hf]
      exact collide_second_ball_mismatch _ _ _ _ _ hgen
  unfold handle_event
  simp only [hnone]

/-- Witness for C1: a concrete popped event whose stored ball generation (3)
differs from the ball's current generation (5) leaves the concrete world and
detection data untouched. -/
theorem generation_mismatch_silent_noop_witness :
    ((GenerationalCollisionEntity.mk 0 .ball 3).collision_type = .ball ∧
      ((World.mk (fun _ => Ball.mk ⟨0, 0⟩ ⟨1, 0⟩ 1 0 5) (fun _ => Wall.mk ⟨0, 0⟩ ⟨1, 0⟩)).balls
          (GenerationalCollisionEntity.mk 0 .ball 3).entity).collision_generation ≠
        (GenerationalCollisionEntity.mk 0 .ball 3).generation ∨
     (GenerationalCollisionEntity.mk 1 .wall 0).collision_type = .ball ∧
      ((World.mk (fun _ => Ball.mk ⟨0, 0⟩ ⟨1, 0⟩ 1 0 5) (fun _ => Wall.mk ⟨0, 0⟩ ⟨1, 0⟩)).balls
          (GenerationalCollisionEntity.mk 1 .wall 0).entity).collision_generation ≠
        (GenerationalCollisionEntity.mk 1 .wall 0).generation) ∧
    handle_event 1 (World.mk (fun _ => Ball.mk ⟨0, 0⟩ ⟨1, 0⟩ 1 0 5) (fun _ => Wall.mk ⟨0, 0⟩ ⟨1, 0⟩))
      CollisionDetectionData.empty (GenerationalCollisionEntity.mk 0 .ball 3)
      (GenerationalCollisionEntity.mk 1 .wall 0) (1/2) =
      (World.mk (fun _ => Ball.mk ⟨0, 0⟩ ⟨1, 0⟩ 1 0 5) (fun _ => Wall.mk ⟨0, 0⟩ ⟨1, 0⟩),
       CollisionDetectionData.empty) := by
  have h : ((GenerationalCollisionEntity.mk 0 .ball 3).collision_type = .ball ∧
      ((World.mk (fun _ => Ball.mk ⟨0, 0⟩ ⟨1, 0⟩ 1 0 5) (fun _ => Wall.mk ⟨0, 0⟩ ⟨1, 0⟩)).balls
          (GenerationalCollisionEntity.mk 0 .ball 3).entity).collision_generation ≠
        (GenerationalCollisionEntity.mk 0 .ball 3).generation ∨
     (GenerationalCollisionEntity.mk 1 .wall 0).collision_type = .ball ∧
      ((World.mk (fun _ => Ball.mk ⟨0, 0⟩ ⟨1, 0⟩ 1 0 5) (fun _ => Wall.mk ⟨0, 0⟩ ⟨1, 0⟩)).balls
          (GenerationalCollisionEntity.mk 1 .wall 0).entity).collision_generation ≠
        (GenerationalCollisionEntity.mk 1 .wall 0).generation) := by
    left
    exact ⟨rfl, by decide⟩
  exact ⟨h, generation_mismatch_silent_noop 1 _ CollisionDetectionData.empty _ _ (1/2) h⟩

theorem collide_ball_wall_shape (b : Ball) (w : Wall) (t : ℝ) :
    ∃ a0 : Ball, collide_ball_wall b w t = (some (.ball a0), none) := by
  unfold collide_ball_wall
  exact ⟨_, rfl⟩

theorem collide_ball_ball_shape (b0 b1 : Ball) (t : ℝ) :
    ∃ a0 a1 : Ball, collide_ball_ball b0 b1 t = (some (.ball a0), some (.ball a1)) := by
  unfold collide_ball_ball
  dsimp only
  split
  · exact ⟨_, _, rfl⟩
  · exact ⟨_, _, rfl⟩

theorem collide_results_are_balls (c other : Collidable) (g og : ℤ) (t : ℝ)
    (p : Option Collidable × Option Collidable)
    (hp : collide c g other og t = some p) :
    (∀ x, p.1 = some x → ∃ b, x = .ball b) ∧
    (∀ x, p.2 = some x → ∃ b, x = .ball b) := by
  cases c with
  | ball b0 =>
    cases other with
    | ball b1 =>
      by_cases h0 : b0.collision_generation = g
      · by_cases h1 : b1.collision_generation = og
        · simp [collide, h0, h1] at hp
          obtain ⟨a0, a1, hshape⟩ := collide_ball_ball_shape b0 b1 t
          rw [hshape] at hp
          subst hp
          constructor
          · intro x hx
            exact ⟨a0, by simpa using hx.symm⟩
          · intro x hx
            exact ⟨a1, by simpa using hx.symm⟩
        · simp [collide, h0, h1] at hp
      · simp [collide, h0] at hp
    | wall w =>
      by_cases h0 : b0.collision_generation = g
      · simp [collide, h0] at hp
        obtain ⟨a0, hshape⟩ := collide_ball_wall_shape b0 w t
        rw [hshape] at hp
        subst hp
        constructor
        · intro x hx
          exact ⟨a0, by simpa using hx.symm⟩
        · intro x hx
          simp at hx
      · simp [collide, h0] at hp
  | wall w =>
    cases other with
    | ball b1 =>
      by_cases h1 : b1.collision_generation = og
      · simp [collide, h1] at hp
        obtain ⟨a0, hshape⟩ := collide_ball_wall_shape b1 w t
        rw [hshape] at hp
        subst hp
        constructor
        · intro x hx
          simp at hx
        · intro x hx
          exact ⟨a0, by simpa using hx.symm⟩
      · simp [collide, h1] at hp
    | wall w1 => simp [collide] at hp

theorem write_ball_walls (world : World) (n : ℕ) (b : Ball) :
    (write_collidable world n (.ball b)).walls = world.walls := rfl

theorem handle_event_walls (next_time : ℝ) (world : World)
    (cdd : CollisionDetectionData) (e0 e1 : GenerationalCollisionEntity) (t : ℝ) :
    (handle_event next_time world cdd e0 e1 t).1.walls = world.walls := by
  unfold handle_event
  cases hc : collide (fetch_collidable_copy world e0) e0.generation
      (fetch_collidable_copy world e1) e1.generation t with
  | none => simp [hc]
  | some p =>
    obtain ⟨h1, h2⟩ := collide_results_are_balls _ _ _ _ _ p hc
    obtain ⟨oc0, oc1⟩ := p
    simp only [hc]
    cases oc0 with
    | none =>
      cases oc1 with
      | none => rfl
      | some c =>
        obtain ⟨b, rfl⟩ := h2 c rfl
        rfl
    | some c =>
      obtain ⟨b, rfl⟩ := h1 c rfl
      cases oc1 with
      | none => rfl
      | some c' =>
        obtain ⟨b', rfl⟩ := h2 c' rfl
        rfl

/-- C9: no wall is ever mutated by collision handling: for every sequence of
popped collision events processed in a frame, every `Wall` component is
identical before and after (the detection pass `detect` reads the world
without writing it at all); moreover ball–wall resolution itself updates only
the ball — its wall slot is always `none`. -/
theorem walls_never_mutated (next_time : ℝ) (world : World)
    (cdd : CollisionDetectionData)
    (evs : List (GenerationalCollisionEntity × GenerationalCollisionEntity × ℝ)) :
    (handle_events next_time world cdd evs).1.walls = world.walls ∧
    (∀ (b : Ball) (w : Wall) (t : ℝ), (collide_ball_wall b w t).2 = none) := by
  constructor
  · induction evs generalizing world cdd with
    | nil => rfl
    | cons ev rest ih =>
      have hstep : handle_events next_time world cdd (ev :: rest) =
          handle_events next_time
            (handle_event next_time world cdd ev.1 ev.2.1 ev.2.2).1
            (handle_event next_time world cdd ev.1 ev.2.1 ev.2.2).2 rest := rfl
      rw [hstep, ih, handle_event_walls]
  · intro b w t
    rfl

/-- C10: a popped ball–wall event whose stored generation matches the ball's
current generation always writes an updated ball back into the world —
advanced to the event time with its generation incremented by one, the
velocity reflected only when the ball is still approaching (`v·n < 0`) and
left unchanged otherwise — whichever way the popped pair is keyed:
(ball, wall) through `collide`'s first arm and the handler's first slot, or
(wall, ball) through `collide`'s swap arm (`some (res.1, res.0)` in the
source) and the handler's second slot.  The ball is never left untouched by
a generation-valid ball–wall event. -/
theorem ball_wall_event_always_writes (next_time : ℝ) (world : World)
    (cdd : CollisionDetectionData)
    (e0 e1 eb ew : GenerationalCollisionEntity) (t : ℝ)
    (horient :
      (e0.collision_type = .ball ∧ e1.collision_type = .wall ∧ eb = e0 ∧ ew = e1) ∨
      (e0.collision_type = .wall ∧ e1.collision_type = .ball ∧ eb = e1 ∧ ew = e0))
    (hgen : (world.balls eb.entity).collision_generation = eb.generation) :
    (handle_event next_time world cdd e0 e1 t).1.balls eb.entity =
      (let b := world.balls eb.entity
       let wall := world.walls ew.entity
       let nb := advanceBall b t
       let nb2 := { nb with collision_generation := nb.collision_generation + 1 }
       if b.velocity.dot wall.normal < 0 then
         { nb2 with velocity := nb2.velocity - (2 * b.velocity.dot wall.normal) • wall.normal }
       else nb2) := by
  rcases horient with ⟨h0, h1, rfl, rfl⟩ | ⟨h0, h1, rfl, rfl⟩
  · have hf0 : fetch_collidable_copy world eb = .ball (world.balls eb.entity) := by
      simp [fetch_collidable_copy, h0]
    have hf1 : fetch_collidable_copy world ew = .wall (world.walls ew.entity) := by
      simp [fetch_collidable_copy, h1]
    have hcol : collide (fetch_collidable_copy world eb) eb.generation
        (fetch_collidable_copy world ew) ew.generation t =
        some (collide_ball_wall (world.balls eb.entity) (world.walls ew.entity) t) := by
      rw [hf0, hf1]
      simp [collide, hgen]
    have hshape : collide_ball_wall (world.balls eb.entity) (world.walls ew.entity) t =
        (some (.ball
          (let b := world.balls eb.entity
           let wall := world.walls ew.entity
           let nb := advanceBall b t
           let nb2 := { nb with collision_generation := nb.collision_generation + 1 }
           if b.velocity.dot wall.normal < 0 then
             { nb2 with velocity := nb2.velocity - (2 * b.velocity.dot wall.normal) • wall.normal }
           else nb2)), none) := rfl
    unfold handle_event
    simp only [hcol, hshape]
    simp [write_collidable]
  · have hf0 : fetch_collidable_copy world ew = .wall (world.walls ew.entity) := by
      simp [fetch_collidable_copy, h0]
    have hf1 : fetch_collidable_copy world eb = .ball (world.balls eb.entity) := by
      simp [fetch_collidable_copy, h1]
    have hcol : collide (fetch_collidable_copy world ew) ew.generation
        (fetch_collidable_copy world eb) eb.generation t =
        some ((collide_ball_wall (world.balls eb.entity) (world.walls ew.entity) t).2,
              (collide_ball_wall (world.balls eb.entity) (world.walls ew.entity) t).1) := by
      rw [hf0, hf1]
      simp [collide, hgen]
    have hshape : ((collide_ball_wall (world.balls eb.entity) (world.walls ew.entity) t).2,
          (collide_ball_wall (world.balls eb.entity) (world.walls ew.entity) t).1) =
        ((none : Option Collidable),
         some (.ball
          (let b := world.balls eb.entity
           let wall := world.walls ew.entity
           let nb := advanceBall b t
           let nb2 := { nb with collision_generation := nb.collision_generation + 1 }
           if b.velocity.dot wall.normal < 0 then
             { nb2 with velocity := nb2.velocity - (2 * b.velocity.dot wall.normal) • wall.normal }
           else nb2))) := rfl
    unfold handle_event
    simp only [hcol, hshape]
    simp [write_collidable]

/-- Concrete world for the C10 witness: every ball id holds a
generation-0 ball above a horizontal wall. -/
noncomputable def w10World : World :=
  ⟨fun _ => Ball.mk ⟨0, 4⟩ ⟨0, -2⟩ 1 0 0, fun _ => Wall.mk ⟨0, 0⟩ ⟨1, 0⟩⟩

def w10Ball : GenerationalCollisionEntity := ⟨0, .ball, 0⟩

def w10Wall : GenerationalCollisionEntity := ⟨1, .wall, 0⟩

/-- Witness for C10: a concrete generation-valid ball–wall event writes the
advanced, generation-bumped ball back into the world — exercised in both
key orders, (ball, wall) and the detection-typical (wall, ball) which goes
through `collide`'s swap arm and the handler's second slot. -/
theorem ball_wall_event_always_writes_witness :
    ((w10Ball.collision_type = .ball ∧ w10Wall.collision_type = .wall ∧
        w10Ball = w10Ball ∧ w10Wall = w10Wall) ∨
     (w10Ball.collision_type = .wall ∧ w10Wall.collision_type = .ball ∧
        w10Ball = w10Wall ∧ w10Wall = w10Ball)) ∧
    ((w10Wall.collision_type = .ball ∧ w10Ball.collision_type = .wall ∧
        w10Ball = w10Wall ∧ w10Wall = w10Ball) ∨
     (w10Wall.collision_type = .wall ∧ w10Ball.collision_type = .ball ∧
        w10Ball = w10Ball ∧ w10Wall = w10Wall)) ∧
    (w10World.balls w10Ball.entity).collision_generation = w10Ball.generation ∧
    (handle_event 2 w10World CollisionDetectionData.empty w10Ball w10Wall (3/2)).1.balls
        w10Ball.entity =
      (let b := w10World.balls w10Ball.entity
       let wall := w10World.walls w10Wall.entity
       let nb := advanceBall b (3/2)
       let nb2 := { nb with collision_generation := nb.collision_generation + 1 }
       if b.velocity.dot wall.normal < 0 then
         { nb2 with velocity := nb2.velocity - (2 * b.velocity.dot wall.normal) • wall.normal }
       else nb2) ∧
    (handle_event 2 w10World CollisionDetectionData.empty w10Wall w10Ball (3/2)).1.balls
        w10Ball.entity =
      (let b := w10World.balls w10Ball.entity
       let wall := w10World.walls w10Wall.entity
       let nb := advanceBall b (3/2)
       let nb2 := { nb with collision_generation := nb.collision_generation + 1 }
       if b.velocity.dot wall.normal < 0 then
         { nb2 with velocity := nb2.velocity - (2 * b.velocity.dot wall.normal) • wall.normal }
       else nb2) :=
  ⟨Or.inl ⟨rfl, rfl, rfl, rfl⟩,
   Or.inr ⟨rfl, rfl, rfl, rfl⟩,
   rfl,
   ball_wall_event_always_writes 2 w10World CollisionDetectionData.empty
     w10Ball w10Wall w10Ball w10Wall (3/2) (Or.inl ⟨rfl, rfl, rfl, rfl⟩) rfl,
   ball_wall_event_always_writes 2 w10World CollisionDetectionData.empty
     w10Wall w10Ball w10Ball w10Wall (3/2) (Or.inr ⟨rfl, rfl, rfl, rfl⟩) rfl⟩

theorem dot_add_smul_sub (n p v q : Vec2) (c : ℝ) :
    n.dot (p + c • v - q) = n.dot (p - q) + c * n.dot v := by
  simp [Vec2.dot]; ring

/-- The normal of a horizontal wall pointing along +x is the +y unit vector. -/
theorem horizontal_wall_normal : (Wall.mk ⟨0, 0⟩ ⟨1, 0⟩).normal = ⟨0, 1⟩ := by
  simp [Wall.normal, Vec2.normalize, Vec2.norm, Vec2.dot, Vec2.ext_iff]

/-- C5: ball–wall solving: with signed distance `d = n·(position - p0)` and
approach rate `a = n·velocity`, the solver returns `none` exactly when
`d*a >= 0`, and otherwise the pair `(initial_time - (d - radius)/a,
initial_time - d/a)`; at the entry time the signed distance to the line is
exactly `radius` and at the touch time exactly `0`; in particular a ball of
radius 1 at signed distance 4 approaching at speed 2 yields entry time
`3/2 = 1.5` (and touch time 2). -/
theorem ball_wall_solver_correct :
    (∀ (ball : Ball) (wall : Wall),
      solve_collision_ball_wall ball wall =
        (let n := wall.normal
         let a := n.dot ball.velocity
         let d := n.dot (ball.position - wall.p0)
         if d * a ≥ 0 then none
         else some (ball.initial_time - (d - ball.radius) / a,
                    ball.initial_time - d / a))) ∧
    (∀ (ball : Ball) (wall : Wall) (tE tT : ℝ),
      solve_collision_ball_wall ball wall = some (tE, tT) →
        wall.normal.dot (ball.position + (tE - ball.initial_time) • ball.velocity - wall.p0) =
          ball.radius ∧
        wall.normal.dot (ball.position + (tT - ball.initial_time) • ball.velocity - wall.p0) =
          0) ∧
    solve_collision_ball_wall (Ball.mk ⟨0, 4⟩ ⟨0, -2⟩ 1 0 0) (Wall.mk ⟨0, 0⟩ ⟨1, 0⟩) =
      some (3/2, 2) := by
  refine ⟨?_, ?_, ?_⟩
  · intro ball wall
    unfold solve_collision_ball_wall
    dsimp only
    split
    · rfl
    · simp only [Option.some.injEq, Prod.mk.injEq]
      constructor <;> ring
  · intro ball wall tE tT h
    unfold solve_collision_ball_wall at h
    dsimp only at h
    split at h
    · exact absurd h (by simp)
    · rename_i hlt
      push_neg at hlt
      have ha : wall.normal.dot ball.velocity ≠ 0 := by
        intro ha0
        rw [ha0, mul_zero] at hlt
        exact lt_irrefl 0 hlt
      simp only [Option.some.injEq, Prod.mk.injEq] at h
      obtain ⟨hE, hT⟩ := h
      constructor
      · rw [dot_add_smul_sub, ← hE]
        field_simp
        ring
      · rw [dot_add_smul_sub, ← hT]
        field_simp
        ring
  · unfold solve_collision_ball_wall
    rw [horizontal_wall_normal]
    simp [Vec2.dot]
    norm_num

theorem dot_self_eq_zero_components (v : Vec2) (h : v.dot v = 0) :
    v.x = 0 ∧ v.y = 0 := by
  have hx := mul_self_nonneg v.x
  have hy := mul_self_nonneg v.y
  simp only [Vec2.dot] at h
  constructor <;> nlinarith


/-- The relative affine offset `affine = affine0 - affine1` formed inside
`solve_collision_ball_ball`. -/
noncomputable def ballAffine (b0 b1 : Ball) : Vec2 :=
  (b0.position - b0.initial_time • b0.velocity) -
    (b1.position - b1.initial_time • b1.velocity)

/-- Leading coefficient `a = dv·dv` of the solver's quadratic. -/
noncomputable def quadA (b0 b1 : Ball) : ℝ :=
  (b0.velocity - b1.velocity).dot (b0.velocity - b1.velocity)

/-- Linear coefficient `b = 2·dv·affine` of the solver's quadratic. -/
noncomputable def quadB (b0 b1 : Ball) : ℝ :=
  (b0.velocity - b1.velocity).dot (ballAffine b0 b1) * 2

/-- Constant coefficient `c = affine·affine - (r0+r1)²` of the solver's
quadratic. -/
noncomputable def quadC (b0 b1 : Ball) : ℝ :=
  (ballAffine b0 b1).dot (ballAffine b0 b1) -
    (b0.radius + b1.radius) * (b0.radius + b1.radius)

theorem quadratic_root_formula (A B C s : ℝ) (hA : A ≠ 0)
    (hs : s * s = B * B - 4 * A * C) :
    A * ((-B - s) / (2 * A))^2 + B * ((-B - s) / (2 * A)) + C = 0 := by
  field_simp
  nlinarith [hs]

theorem quadratic_vertex_min (A B C : ℝ) (hA : 0 < A) (t : ℝ) :
    A * (-B / (2 * A))^2 + B * (-B / (2 * A)) + C ≤ A * t^2 + B * t + C := by
  have h4A : 0 < 4 * A := by linarith
  have hkey : A * t^2 + B * t + C -
      (A * (-B / (2 * A))^2 + B * (-B / (2 * A)) + C) =
      (2 * A * t + B)^2 / (4 * A) := by
    field_simp
    ring
  nlinarith [div_nonneg (sq_nonneg (2 * A * t + B)) (le_of_lt h4A), hkey]

/-- C3: whenever the ball–ball solver does not reject a pair, the returned
pair is exactly (first root, vertex time) of the quadratic
`‖Δp(t)‖² = (r0+r1)²`: the quadratic `quadA·t² + quadB·t + quadC` built from
the solver's coefficients agrees with `‖Δp(t)‖² - (r0+r1)²` for every `t`;
the first returned time equals `(-B - sqrt(B·B - 4·A·C)) / (2·A)` and is a
genuine root; the second equals the vertex `-B/(2·A)` and globally minimises
the quadratic (it is only a loose upper bound for the contact window, not an
exact separation time). -/
theorem ball_ball_solver_roots (b0 b1 : Ball) (t0 t1 : ℝ)
    (h : solve_collision_ball_ball b0 b1 = some (t0, t1)) :
    (∀ t : ℝ,
      ((b0.position + (t - b0.initial_time) • b0.velocity) -
          (b1.position + (t - b1.initial_time) • b1.velocity)).dot
        ((b0.position + (t - b0.initial_time) • b0.velocity) -
          (b1.position + (t - b1.initial_time) • b1.velocity)) -
        (b0.radius + b1.radius) * (b0.radius + b1.radius) =
        quadA b0 b1 * t^2 + quadB b0 b1 * t + quadC b0 b1) ∧
    t0 = (-quadB b0 b1 -
        Real.sqrt (quadB b0 b1 * quadB b0 b1 - 4 * quadA b0 b1 * quadC b0 b1)) /
        (2 * quadA b0 b1) ∧
    t1 = -quadB b0 b1 / (2 * quadA b0 b1) ∧
    0 < quadA b0 b1 ∧
    quadA b0 b1 * t0^2 + quadB b0 b1 * t0 + quadC b0 b1 = 0 ∧
    (∀ t : ℝ, quadA b0 b1 * t1^2 + quadB b0 b1 * t1 + quadC b0 b1 ≤
      quadA b0 b1 * t^2 + quadB b0 b1 * t + quadC b0 b1) := by
  unfold solve_collision_ball_ball at h
  dsimp only at h
  split at h
  · exact absurd h (by simp)
  · rename_i hproj
    split at h
    · exact absurd h (by simp)
    · rename_i hdisc
      push_neg at hproj hdisc
      simp only [Option.some.injEq, Prod.mk.injEq] at h
      obtain ⟨ht0, ht1⟩ := h
      have ht0' : t0 = (-quadB b0 b1 -
          Real.sqrt (quadB b0 b1 * quadB b0 b1 - 4 * quadA b0 b1 * quadC b0 b1)) /
          (2 * quadA b0 b1) := by
        rw [← ht0]; rfl
      have ht1' : t1 = -quadB b0 b1 / (2 * quadA b0 b1) := by
        rw [← ht1]; rfl
      have hdisc' : (0:ℝ) ≤ quadB b0 b1 * quadB b0 b1 - 4 * quadA b0 b1 * quadC b0 b1 :=
        hdisc
      have hA0 : (0:ℝ) ≤ quadA b0 b1 := Vec2.dot_nonneg _
      have hA : 0 < quadA b0 b1 := by
        rcases lt_or_eq_of_le hA0 with hlt | heq
        · exact hlt
        · exfalso
          obtain ⟨hx, hy⟩ := dot_self_eq_zero_components _ heq.symm
          have hproj0 : (b0.velocity - b1.velocity).dot (b0.position - b1.position) = 0 := by
            simp [Vec2.dot, hx, hy]
          rw [hproj0] at hproj
          have hε : (0:ℝ) < EPSILON := by norm_num [EPSILON]
          linarith
      have hs : Real.sqrt (quadB b0 b1 * quadB b0 b1 - 4 * quadA b0 b1 * quadC b0 b1) *
          Real.sqrt (quadB b0 b1 * quadB b0 b1 - 4 * quadA b0 b1 * quadC b0 b1) =
          quadB b0 b1 * quadB b0 b1 - 4 * quadA b0 b1 * quadC b0 b1 :=
        Real.mul_self_sqrt hdisc'
      refine ⟨?_, ht0', ht1', hA, ?_, ?_⟩
      · intro t
        simp only [quadA, quadB, quadC, ballAffine, Vec2.dot, Vec2.add_x, Vec2.add_y,
          Vec2.sub_x, Vec2.sub_y, Vec2.smul_x, Vec2.smul_y]
        ring
      · rw [ht0']
        exact quadratic_root_formula _ _ _ _ (ne_of_gt hA) hs
      · intro t
        rw [ht1']
        exact quadratic_vertex_min _ _ _ hA t

/-- Witness for C3: two unit-radius balls at (0,0) and (10,0) with velocities
(5,0) and (−5,0), both at time 0: the solver returns entry time 4/5 = 0.8
(and vertex time 1), and the root/vertex properties hold there. -/
theorem ball_ball_solver_roots_witness :
    solve_collision_ball_ball (Ball.mk ⟨0, 0⟩ ⟨5, 0⟩ 1 0 0)
        (Ball.mk ⟨10, 0⟩ ⟨-5, 0⟩ 1 0 0) = some (4/5, 1) ∧
    ((∀ t : ℝ,
      (((Ball.mk ⟨0, 0⟩ ⟨5, 0⟩ 1 0 0 : Ball).position +
            (t - (Ball.mk ⟨0, 0⟩ ⟨5, 0⟩ 1 0 0 : Ball).initial_time) •
              (Ball.mk ⟨0, 0⟩ ⟨5, 0⟩ 1 0 0 : Ball).velocity) -
          ((Ball.mk ⟨10, 0⟩ ⟨-5, 0⟩ 1 0 0 : Ball).position +
            (t - (Ball.mk ⟨10, 0⟩ ⟨-5, 0⟩ 1 0 0 : Ball).initial_time) •
              (Ball.mk ⟨10, 0⟩ ⟨-5, 0⟩ 1 0 0 : Ball).velocity)).dot
        (((Ball.mk ⟨0, 0⟩ ⟨5, 0⟩ 1 0 0 : Ball).position +
            (t - (Ball.mk ⟨0, 0⟩ ⟨5, 0⟩ 1 0 0 : Ball).initial_time) •
              (Ball.mk ⟨0, 0⟩ ⟨5, 0⟩ 1 0 0 : Ball).velocity) -
          ((Ball.mk ⟨10, 0⟩ ⟨-5, 0⟩ 1 0 0 : Ball).position +
            (t - (Ball.mk ⟨10, 0⟩ ⟨-5, 0⟩ 1 0 0 : Ball).initial_time) •
              (Ball.mk ⟨10, 0⟩ ⟨-5, 0⟩ 1 0 0 : Ball).velocity)) -
        ((Ball.mk ⟨0, 0⟩ ⟨5, 0⟩ 1 0 0 : Ball).radius +
          (Ball.mk ⟨10, 0⟩ ⟨-5, 0⟩ 1 0 0 : Ball).radius) *
        ((Ball.mk ⟨0, 0⟩ ⟨5, 0⟩ 1 0 0 : Ball).radius +
          (Ball.mk ⟨10, 0⟩ ⟨-5, 0⟩ 1 0 0 : Ball).radius) =
        quadA (Ball.mk ⟨0, 0⟩ ⟨5, 0⟩ 1 0 0) (Ball.mk ⟨10, 0⟩ ⟨-5, 0⟩ 1 0 0) * t^2 +
          quadB (Ball.mk ⟨0, 0⟩ ⟨5, 0⟩ 1 0 0) (Ball.mk ⟨10, 0⟩ ⟨-5, 0⟩ 1 0 0) * t +
          quadC (Ball.mk ⟨0, 0⟩ ⟨5, 0⟩ 1 0 0) (Ball.mk ⟨10, 0⟩ ⟨-5, 0⟩ 1 0 0)) ∧
    (4/5 : ℝ) = (-quadB (Ball.mk ⟨0, 0⟩ ⟨5, 0⟩ 1 0 0) (Ball.mk ⟨10, 0⟩ ⟨-5, 0⟩ 1 0 0) -
        Real.sqrt (quadB (Ball.mk ⟨0, 0⟩ ⟨5, 0⟩ 1 0 0) (Ball.mk ⟨10, 0⟩ ⟨-5, 0⟩ 1 0 0) *
            quadB (Ball.mk ⟨0, 0⟩ ⟨5, 0⟩ 1 0 0) (Ball.mk ⟨10, 0⟩ ⟨-5, 0⟩ 1 0 0) -
          4 * quadA (Ball.mk ⟨0, 0⟩ ⟨5, 0⟩ 1 0 0) (Ball.mk ⟨10, 0⟩ ⟨-5, 0⟩ 1 0 0) *
            quadC (Ball.mk ⟨0, 0⟩ ⟨5, 0⟩ 1 0 0) (Ball.mk ⟨10, 0⟩ ⟨-5, 0⟩ 1 0 0))) /
        (2 * quadA (Ball.mk ⟨0, 0⟩ ⟨5, 0⟩ 1 0 0) (Ball.mk ⟨10, 0⟩ ⟨-5, 0⟩ 1 0 0)) ∧
    (1 : ℝ) = -quadB (Ball.mk ⟨0, 0⟩ ⟨5, 0⟩ 1 0 0) (Ball.mk ⟨10, 0⟩ ⟨-5, 0⟩ 1 0 0) /
        (2 * quadA (Ball.mk ⟨0, 0⟩ ⟨5, 0⟩ 1 0 0) (Ball.mk ⟨10, 0⟩ ⟨-5, 0⟩ 1 0 0)) ∧
    0 < quadA (Ball.mk ⟨0, 0⟩ ⟨5, 0⟩ 1 0 0) (Ball.mk ⟨10, 0⟩ ⟨-5, 0⟩ 1 0 0) ∧
    quadA (Ball.mk ⟨0, 0⟩ ⟨5, 0⟩ 1 0 0) (Ball.mk ⟨10, 0⟩ ⟨-5, 0⟩ 1 0 0) * (4/5 : ℝ)^2 +
      quadB (Ball.mk ⟨0, 0⟩ ⟨5, 0⟩ 1 0 0) (Ball.mk ⟨10, 0⟩ ⟨-5, 0⟩ 1 0 0) * (4/5) +
      quadC (Ball.mk ⟨0, 0⟩ ⟨5, 0⟩ 1 0 0) (Ball.mk ⟨10, 0⟩ ⟨-5, 0⟩ 1 0 0) = 0 ∧
    (∀ t : ℝ,
      quadA (Ball.mk ⟨0, 0⟩ ⟨5, 0⟩ 1 0 0) (Ball.mk ⟨10, 0⟩ ⟨-5, 0⟩ 1 0 0) * (1:ℝ)^2 +
        quadB (Ball.mk ⟨0, 0⟩ ⟨5, 0⟩ 1 0 0) (Ball.mk ⟨10, 0⟩ ⟨-5, 0⟩ 1 0 0) * 1 +
        quadC (Ball.mk ⟨0, 0⟩ ⟨5, 0⟩ 1 0 0) (Ball.mk ⟨10, 0⟩ ⟨-5, 0⟩ 1 0 0) ≤
      quadA (Ball.mk ⟨0, 0⟩ ⟨5, 0⟩ 1 0 0) (Ball.mk ⟨10, 0⟩ ⟨-5, 0⟩ 1 0 0) * t^2 +
        quadB (Ball.mk ⟨0, 0⟩ ⟨5, 0⟩ 1 0 0) (Ball.mk ⟨10, 0⟩ ⟨-5, 0⟩ 1 0 0) * t +
        quadC (Ball.mk ⟨0, 0⟩ ⟨5, 0⟩ 1 0 0) (Ball.mk ⟨10, 0⟩ ⟨-5, 0⟩ 1 0 0))) := by
  have heval : solve_collision_ball_ball (Ball.mk ⟨0, 0⟩ ⟨5, 0⟩ 1 0 0)
      (Ball.mk ⟨10, 0⟩ ⟨-5, 0⟩ 1 0 0) = some (4/5, 1) := by
    have h40 : Real.sqrt 1600 = 40 := by
      rw [show (1600:ℝ) = 40^2 by norm_num, Real.sqrt_sq (by norm_num : (0:ℝ) ≤ 40)]
    unfold solve_collision_ball_ball
    norm_num [Vec2.dot, EPSILON, h40]
  exact ⟨heval,
    ball_ball_solver_roots (Ball.mk ⟨0, 0⟩ ⟨5, 0⟩ 1 0 0)
      (Ball.mk ⟨10, 0⟩ ⟨-5, 0⟩ 1 0 0) (4/5) 1 heval⟩

/-- C4 (amended): the ball–ball solver returns `none` exactly when the pair
is separating within tolerance (`dv·dx > -EPSILON`) or the discriminant is
negative; both are ordinary no-collision results of the total solver
function, not panics.  (Contrary to the original claim there is no rejection
of an approximately-zero leading coefficient — that check is commented out
in the source; an exactly-zero coefficient forces `dv·dx = 0`, which the
separating test already catches, but a tiny nonzero coefficient passes
through to the root formula.) -/
theorem ball_ball_solver_none_iff (b0 b1 : Ball) :
    solve_collision_ball_ball b0 b1 = none ↔
      ((b0.velocity - b1.velocity).dot (b0.position - b1.position) > -EPSILON ∨
       quadB b0 b1 * quadB b0 b1 - 4 * quadA b0 b1 * quadC b0 b1 < 0) := by
  constructor
  · intro h
    unfold solve_collision_ball_ball at h
    dsimp only at h
    split at h
    · rename_i hc
      exact Or.inl hc
    · split at h
      · rename_i hd
        exact Or.inr hd
      · exact absurd h (by simp)
  · intro h
    unfold solve_collision_ball_ball
    dsimp only
    split
    · rfl
    · rename_i hc
      split
      · rfl
      · rename_i hd
        exfalso
        rcases h with h1 | h2
        · exact hc h1
        · exact hd h2

/-- Counterexample for C4: the claim's parallel-paths clause fails on the
code.  For these balls the quadratic's leading coefficient is
`1/1000000 ≤ EPSILON` — approximately zero by the code's own tolerance — yet
the solver does not return `none`: it returns the (far-future) interval
`(8000, 10000)`. -/
theorem ball_ball_solver_small_coeff_counterexample :
    quadA (Ball.mk ⟨10, 0⟩ ⟨0, 0⟩ 1 0 0) (Ball.mk ⟨0, 0⟩ ⟨1/1000, 0⟩ 1 0 0) =
      1/1000000 ∧
    (1/1000000 : ℝ) ≤ EPSILON ∧ (1/1000000 : ℝ) ≠ 0 ∧
    solve_collision_ball_ball (Ball.mk ⟨10, 0⟩ ⟨0, 0⟩ 1 0 0)
      (Ball.mk ⟨0, 0⟩ ⟨1/1000, 0⟩ 1 0 0) = some (8000, 10000) := by
  refine ⟨by norm_num [quadA, Vec2.dot], by norm_num [EPSILON], by norm_num, ?_⟩
  have hsq : Real.sqrt (1/62500) = 1/250 := by
    rw [show (1/62500 : ℝ) = (1/250)^2 by norm_num,
      Real.sqrt_sq (by norm_num : (0:ℝ) ≤ 1/250)]
  unfold solve_collision_ball_ball
  norm_num [Vec2.dot, EPSILON, hsq]

@[simp] theorem advanceBall_velocity (b : Ball) (t : ℝ) :
    (advanceBall b t).velocity = b.velocity := rfl

@[simp] theorem advanceBall_radius (b : Ball) (t : ℝ) :
    (advanceBall b t).radius = b.radius := rfl

@[simp] theorem advanceBall_generation (b : Ball) (t : ℝ) :
    (advanceBall b t).collision_generation = b.collision_generation := rfl

@[simp] theorem advanceBall_initial_time (b : Ball) (t : ℝ) :
    (advanceBall b t).initial_time = t := rfl

/-- C7 (amended): equal-radius (hence equal area-mass) balls colliding
head-on — at the collision time the velocities are equal and opposite and
directed along the line of centers, pointing toward contact — exactly
exchange their velocities under ball–ball resolution, provided the common
speed does not exceed the resolver's hard 1000-unit speed cap (the cap,
present in the source, rescales faster results and breaks exact exchange
above it). -/
theorem head_on_equal_mass_exchange (b0 b1 : Ball) (t lam : ℝ)
    (hr : b0.radius = b1.radius) (hrpos : 0 < b0.radius)
    (hopp : b1.velocity = -b0.velocity)
    (hdir : b0.velocity =
      lam • ((advanceBall b0 t).position - (advanceBall b1 t).position))
    (hlam : lam < 0)
    (hdx : (advanceBall b0 t).position ≠ (advanceBall b1 t).position)
    (hcap : (b0.velocity).norm ≤ 1000) :
    collide_ball_ball b0 b1 t =
      (some (.ball { advanceBall b0 t with
         velocity := b1.velocity
         collision_generation := b0.collision_generation + 1 }),
       some (.ball { advanceBall b1 t with
         velocity := b0.velocity
         collision_generation := b1.collision_generation + 1 })) := by
  set D : Vec2 := (advanceBall b0 t).position - (advanceBall b1 t).position with hDdef
  have hDne : ¬ (D.x = 0 ∧ D.y = 0) := by
    rintro ⟨hx, hy⟩
    apply hdx
    apply Vec2.ext_iff.mpr
    rw [hDdef] at hx hy
    simp only [Vec2.sub_x, Vec2.sub_y] at hx hy
    constructor
    · linarith
    · linarith
  have hd2pos : 0 < D.dot D := by
    rcases lt_or_eq_of_le (Vec2.dot_nonneg D) with hq | hq
    · exact hq
    · exact absurd (dot_self_eq_zero_components D hq.symm) hDne
  have hd2ne : D.dot D ≠ 0 := ne_of_gt hd2pos
  have hproj : ((advanceBall b0 t).velocity - (advanceBall b1 t).velocity).dot D < 0 := by
    rw [advanceBall_velocity, advanceBall_velocity, hopp, hdir]
    have hexp : ((lam • D) - -(lam • D)).dot D = 2 * lam * (D.dot D) := by
      simp [Vec2.dot]
      ring
    rw [hexp]
    have h2 : 0 < 2 * (D.dot D) := by linarith
    nlinarith
  unfold collide_ball_ball
  dsimp only
  rw [if_pos hproj]
  simp only [advanceBall_velocity, advanceBall_radius, advanceBall_generation]
  rw [← hDdef]
  have hVpre0 : b0.velocity - (b1.radius * b1.radius) •
      ((2 / (b0.radius * b0.radius + b1.radius * b1.radius) *
        ((b0.velocity - b1.velocity).dot D) / (D.dot D)) • D) = b1.velocity := by
    rw [hopp, hdir, ← hr]
    apply Vec2.ext_iff.mpr
    simp only [Vec2.sub_x, Vec2.sub_y, Vec2.smul_x, Vec2.smul_y, Vec2.neg_x, Vec2.neg_y,
      Vec2.dot]
    have hd2ne' : D.x * D.x + D.y * D.y ≠ 0 := by
      simpa [Vec2.dot] using hd2ne
    constructor
    · field_simp
      ring
    · field_simp
      ring
  have hVpre1 : b1.velocity + (b0.radius * b0.radius) •
      ((2 / (b0.radius * b0.radius + b1.radius * b1.radius) *
        ((b0.velocity - b1.velocity).dot D) / (D.dot D)) • D) = b0.velocity := by
    rw [hopp, hdir, ← hr]
    apply Vec2.ext_iff.mpr
    simp only [Vec2.sub_x, Vec2.sub_y, Vec2.smul_x, Vec2.smul_y, Vec2.neg_x, Vec2.neg_y,
      Vec2.add_x, Vec2.add_y, Vec2.dot]
    have hd2ne' : D.x * D.x + D.y * D.y ≠ 0 := by
      simpa [Vec2.dot] using hd2ne
    constructor
    · field_simp
      ring
    · field_simp
      ring
  rw [hVpre0, hVpre1]
  have hnorm1 : (b1.velocity).norm = (b0.velocity).norm := by
    rw [hopp, Vec2.norm_neg]
  have hnc0 : ¬ ((b1.velocity).norm > 1000) := by
    rw [hnorm1]
    linarith
  have hnc1 : ¬ ((b0.velocity).norm > 1000) := by
    linarith
  rw [if_neg hnc0, if_neg hnc1]

/-- Counterexample for C7: the claim fails as stated because of the hard
speed cap.  Two equal unit-radius balls in contact, head-on along the line
of centers with equal-and-opposite velocities of speed 2000: the resolver
first exchanges the velocities but then rescales each to speed 1000, so the
final velocity `(-1000, 0)` is not the exchanged initial velocity
`(-2000, 0)`. -/
theorem head_on_exchange_speed_cap_counterexample :
    (Ball.mk ⟨0, 0⟩ ⟨2000, 0⟩ 1 0 0 : Ball).radius =
      (Ball.mk ⟨2, 0⟩ ⟨-2000, 0⟩ 1 0 0 : Ball).radius ∧
    (Ball.mk ⟨2, 0⟩ ⟨-2000, 0⟩ 1 0 0 : Ball).velocity =
      -(Ball.mk ⟨0, 0⟩ ⟨2000, 0⟩ 1 0 0 : Ball).velocity ∧
    collide_ball_ball (Ball.mk ⟨0, 0⟩ ⟨2000, 0⟩ 1 0 0)
        (Ball.mk ⟨2, 0⟩ ⟨-2000, 0⟩ 1 0 0) 0 =
      (some (.ball (Ball.mk ⟨0, 0⟩ ⟨-1000, 0⟩ 1 0 1)),
       some (.ball (Ball.mk ⟨2, 0⟩ ⟨1000, 0⟩ 1 0 1))) ∧
    Vec2.mk (-1000) 0 ≠ (Ball.mk ⟨2, 0⟩ ⟨-2000, 0⟩ 1 0 0 : Ball).velocity := by
  have hsq : Real.sqrt 4000000 = 2000 := by
    rw [show (4000000:ℝ) = 2000^2 by norm_num, Real.sqrt_sq (by norm_num : (0:ℝ) ≤ 2000)]
  refine ⟨rfl, by simp [Vec2.ext_iff], ?_, by simp [Vec2.ext_iff]⟩
  unfold collide_ball_ball advanceBall
  norm_num [Vec2.dot, Vec2.norm, Vec2.ext_iff, Ball.mk.injEq, Prod.mk.injEq,
    Option.some.injEq, Collidable.ball.injEq, hsq]

/-- Witness for C7 (amended): equal unit-radius balls touching at (0,0) and
(2,0) with velocities (5,0) and (−5,0) — head-on at speed 5, below the cap —
exactly exchange their velocities. -/
theorem head_on_equal_mass_exchange_witness :
    (Ball.mk ⟨0, 0⟩ ⟨5, 0⟩ 1 0 0 : Ball).radius =
      (Ball.mk ⟨2, 0⟩ ⟨-5, 0⟩ 1 0 0 : Ball).radius ∧
    0 < (Ball.mk ⟨0, 0⟩ ⟨5, 0⟩ 1 0 0 : Ball).radius ∧
    (Ball.mk ⟨2, 0⟩ ⟨-5, 0⟩ 1 0 0 : Ball).velocity =
      -(Ball.mk ⟨0, 0⟩ ⟨5, 0⟩ 1 0 0 : Ball).velocity ∧
    (Ball.mk ⟨0, 0⟩ ⟨5, 0⟩ 1 0 0 : Ball).velocity = (-5/2 : ℝ) •
      ((advanceBall (Ball.mk ⟨0, 0⟩ ⟨5, 0⟩ 1 0 0) 0).position -
       (advanceBall (Ball.mk ⟨2, 0⟩ ⟨-5, 0⟩ 1 0 0) 0).position) ∧
    (-5/2 : ℝ) < 0 ∧
    (advanceBall (Ball.mk ⟨0, 0⟩ ⟨5, 0⟩ 1 0 0) 0).position ≠
      (advanceBall (Ball.mk ⟨2, 0⟩ ⟨-5, 0⟩ 1 0 0) 0).position ∧
    ((Ball.mk ⟨0, 0⟩ ⟨5, 0⟩ 1 0 0 : Ball).velocity).norm ≤ 1000 ∧
    collide_ball_ball (Ball.mk ⟨0, 0⟩ ⟨5, 0⟩ 1 0 0) (Ball.mk ⟨2, 0⟩ ⟨-5, 0⟩ 1 0 0) 0 =
      (some (.ball { advanceBall (Ball.mk ⟨0, 0⟩ ⟨5, 0⟩ 1 0 0) 0 with
         velocity := (Ball.mk ⟨2, 0⟩ ⟨-5, 0⟩ 1 0 0 : Ball).velocity
         collision_generation := (Ball.mk ⟨0, 0⟩ ⟨5, 0⟩ 1 0 0 : Ball).collision_generation + 1 }),
       some (.ball { advanceBall (Ball.mk ⟨2, 0⟩ ⟨-5, 0⟩ 1 0 0) 0 with
         velocity := (Ball.mk ⟨0, 0⟩ ⟨5, 0⟩ 1 0 0 : Ball).velocity
         collision_generation := (Ball.mk ⟨2, 0⟩ ⟨-5, 0⟩ 1 0 0 : Ball).collision_generation + 1 })) := by
  have h25 : Real.sqrt 25 = 5 := by
    rw [show (25:ℝ) = 5^2 by norm_num, Real.sqrt_sq (by norm_num : (0:ℝ) ≤ 5)]
  have hr : (Ball.mk ⟨0, 0⟩ ⟨5, 0⟩ 1 0 0 : Ball).radius =
      (Ball.mk ⟨2, 0⟩ ⟨-5, 0⟩ 1 0 0 : Ball).radius := rfl
  have hrpos : (0:ℝ) < (Ball.mk ⟨0, 0⟩ ⟨5, 0⟩ 1 0 0 : Ball).radius := by norm_num
  have hopp : (Ball.mk ⟨2, 0⟩ ⟨-5, 0⟩ 1 0 0 : Ball).velocity =
      -(Ball.mk ⟨0, 0⟩ ⟨5, 0⟩ 1 0 0 : Ball).velocity := by simp [Vec2.ext_iff]
  have hdir : (Ball.mk ⟨0, 0⟩ ⟨5, 0⟩ 1 0 0 : Ball).velocity = (-5/2 : ℝ) •
      ((advanceBall (Ball.mk ⟨0, 0⟩ ⟨5, 0⟩ 1 0 0) 0).position -
       (advanceBall (Ball.mk ⟨2, 0⟩ ⟨-5, 0⟩ 1 0 0) 0).position) := by
    simp [advanceBall, Vec2.ext_iff]
  have hlam : (-5/2 : ℝ) < 0 := by norm_num
  have hdx : (advanceBall (Ball.mk ⟨0, 0⟩ ⟨5, 0⟩ 1 0 0) 0).position ≠
      (advanceBall (Ball.mk ⟨2, 0⟩ ⟨-5, 0⟩ 1 0 0) 0).position := by
    simp [advanceBall, Vec2.ext_iff]
  have hcap : ((Ball.mk ⟨0, 0⟩ ⟨5, 0⟩ 1 0 0 : Ball).velocity).norm ≤ 1000 := by
    norm_num [Vec2.norm, Vec2.dot, h25]
  exact ⟨hr, hrpos, hopp, hdir, hlam, hdx, hcap,
    head_on_equal_mass_exchange (Ball.mk ⟨0, 0⟩ ⟨5, 0⟩ 1 0 0)
      (Ball.mk ⟨2, 0⟩ ⟨-5, 0⟩ 1 0 0) 0 (-5/2) hr hrpos hopp hdir hlam hdx hcap⟩

theorem add_buckets_apply (cdd : CollisionDetectionData) (world : World)
    (e : GenerationalCollisionEntity) (c : Collidable) (time next_time : ℝ)
    (cell : ℤ × ℤ) :
    (cdd.add world e c time next_time).spatial_buckets cell =
      if cell ∈ rangeCells (get_cell_range_for_movement c next_time) then
        insert e (cdd.spatial_buckets cell)
      else cdd.spatial_buckets cell := rfl

theorem add_events_apply (cdd : CollisionDetectionData) (world : World)
    (e : GenerationalCollisionEntity) (c : Collidable) (time next_time : ℝ)
    (k : GenerationalCollisionEntity × GenerationalCollisionEntity) :
    (cdd.add world e c time next_time).collisions_events k =
      if k.1 = e ∧ k.2 ∈ addCandidates cdd (get_cell_range_for_movement c next_time) then
        match solve_collision c (fetch_collidable_copy world k.2) with
        | some (t0, t1) =>
          if segments_intersect (t0, t1) (time, next_time) then
            some (-(clampR t0 time next_time))
          else cdd.collisions_events k
        | none => cdd.collisions_events k
      else cdd.collisions_events k := rfl

/-- C6 (amended): during a broad-phase `add` over the window
`[time, next_time]`, a solved contact interval for a candidate in a shared
grid cell produces a queued event if and only if the closed intervals
intersect: `t1 >= time` and `next_time >= t0` (`segments_intersect`).
Boundary-exact contacts are admitted by the closed inequalities, but there
is no EPSILON slack: an interval lying strictly outside the window — even
within EPSILON of a boundary — is not pushed. -/
theorem add_event_pushed_iff (world : World) (cdd : CollisionDetectionData)
    (e y : GenerationalCollisionEntity) (c : Collidable) (time next_time : ℝ)
    (hpre : cdd.collisions_events (e, y) = none) :
    (cdd.add world e c time next_time).collisions_events (e, y) ≠ none ↔
      (y ∈ addCandidates cdd (get_cell_range_for_movement c next_time) ∧
       ∃ t0 t1, solve_collision c (fetch_collidable_copy world y) = some (t0, t1) ∧
         t1 ≥ time ∧ next_time ≥ t0) := by
  rw [add_events_apply]
  by_cases hy : y ∈ addCandidates cdd (get_cell_range_for_movement c next_time)
  · rw [if_pos ⟨rfl, hy⟩]
    cases hsol : solve_collision c (fetch_collidable_copy world y) with
    | none => simp [hpre, hy, hsol]
    | some p =>
      obtain ⟨t0, t1⟩ := p
      dsimp only
      by_cases hseg : segments_intersect (t0, t1) (time, next_time)
      · rw [if_pos hseg]
        simp only [ne_eq, reduceCtorEq, not_false_eq_true, true_iff]
        exact ⟨hy, t0, t1, rfl, hseg.1, hseg.2⟩
      · rw [if_neg hseg]
        rw [hpre]
        simp only [ne_eq, not_true_eq_false, false_iff, not_and]
        intro _
        rintro ⟨t0', t1', hsol', h1, h2⟩
        simp only [Option.some.injEq, Prod.mk.injEq] at hsol'
        obtain ⟨rfl, rfl⟩ := hsol'
        exact hseg ⟨h1, h2⟩
  · rw [if_neg (by rintro ⟨_, hmem⟩; exact hy hmem)]
    rw [hpre]
    simp [hy]

/-- Concrete wall used for the window-slack analysis: the segment from
(0,0) to (1,0), with unit normal (0,1). -/
noncomputable def cxWall6 : Wall := ⟨⟨0, 0⟩, ⟨1, 0⟩⟩

/-- Concrete ball approaching `cxWall6` from above: its contact interval
ends at `9.999995`, within EPSILON below the frame window start 10. -/
noncomputable def cxBall6 : Ball := ⟨⟨5, 1999999/500000⟩, ⟨0, -2/5⟩, 1, 0, 0⟩

/-- World holding the concrete ball and wall. -/
noncomputable def cxWorld6 : World := ⟨fun _ => cxBall6, fun _ => cxWall6⟩

def cxWallGce : GenerationalCollisionEntity := ⟨0, .wall, 0⟩

def cxBallGce : GenerationalCollisionEntity := ⟨1, .ball, 0⟩

theorem cxWall6_range : get_cell_range_for_movement (.wall cxWall6) 11 = (0, 2, 0, 2) := by
  unfold get_cell_range_for_movement cxWall6
  norm_num [Vec2.inf, Vec2.sup, Vec2.add_scalar, EPSILON, CELL_SIZE, Prod.ext_iff]
  have hc1 : ⌈(100001:ℝ)/2000000⌉ = 1 := by
    rw [Int.ceil_eq_iff]
    · norm_num
  have hc2 : ⌈(1:ℝ)/2000000⌉ = 1 := by
    rw [Int.ceil_eq_iff]
    · norm_num
  rw [hc1, hc2]
  norm_num

theorem cxBall6_range : get_cell_range_for_movement (.ball cxBall6) 11 = (0, 2, 0, 2) := by
  unfold get_cell_range_for_movement cxBall6
  norm_num [Vec2.inf, Vec2.sup, Vec2.add_scalar, EPSILON, CELL_SIZE, Prod.ext_iff]
  have hc1 : ⌈(600001:ℝ)/2000000⌉ = 1 := by
    rw [Int.ceil_eq_iff]
    · norm_num
  have hc2 : ⌈(625001:ℝ)/2500000⌉ = 1 := by
    rw [Int.ceil_eq_iff]
    · norm_num
  rw [hc1, hc2]
  norm_num

theorem cx6_solve : solve_collision (.ball cxBall6) (fetch_collidable_copy cxWorld6 cxWallGce) =
    some (1499999/200000, 1999999/200000) := by
  have hf : fetch_collidable_copy cxWorld6 cxWallGce = .wall cxWall6 := rfl
  rw [hf]
  show solve_collision_ball_wall cxBall6 cxWall6 = _
  have hn : cxWall6.normal = ⟨0, 1⟩ := horizontal_wall_normal
  unfold solve_collision_ball_wall cxBall6
  rw [hn]
  norm_num [Vec2.dot, cxWall6]

/-- Counterexample for C6: no EPSILON slack is applied at the window
boundaries.  For this concrete ball and wall the solved contact interval is
`[7.499995, 9.999995]`, whose end lies within EPSILON below the window start
10 (so the claim demands it be pushed); the pair is proposed — the wall is a
broad-phase candidate of the ball's `add` — yet after the `add` over window
`[10, 11]` no event for the pair is queued, because `segments_intersect`
uses plain closed comparisons. -/
theorem add_epsilon_slack_counterexample :
    solve_collision (.ball cxBall6) (fetch_collidable_copy cxWorld6 cxWallGce) =
      some (1499999/200000, 1999999/200000) ∧
    (1999999/200000 : ℝ) ≥ 10 - EPSILON ∧
    (1999999/200000 : ℝ) < 10 ∧
    (1499999/200000 : ℝ) ≤ 11 + EPSILON ∧
    cxWallGce ∈ addCandidates
      (CollisionDetectionData.empty.add cxWorld6 cxWallGce (.wall cxWall6) 10 11)
      (get_cell_range_for_movement (.ball cxBall6) 11) ∧
    ((CollisionDetectionData.empty.add cxWorld6 cxWallGce (.wall cxWall6) 10 11).add
        cxWorld6 cxBallGce (.ball cxBall6) 10 11).collisions_events
      (cxBallGce, cxWallGce) = none := by
  have hmem : cxWallGce ∈ addCandidates
      (CollisionDetectionData.empty.add cxWorld6 cxWallGce (.wall cxWall6) 10 11)
      (get_cell_range_for_movement (.ball cxBall6) 11) := by
    rw [cxBall6_range]
    unfold addCandidates
    apply Finset.mem_sup.mpr
    refine ⟨(0, 0), by decide, ?_⟩
    rw [add_buckets_apply, cxWall6_range]
    rw [if_pos (by decide)]
    exact Finset.mem_insert_self _ _
  refine ⟨cx6_solve, by norm_num [EPSILON], by norm_num, by norm_num [EPSILON], hmem, ?_⟩
  rw [add_events_apply]
  rw [if_pos ⟨rfl, hmem⟩]
  dsimp only
  rw [cx6_solve]
  dsimp only
  rw [if_neg (by norm_num [segments_intersect])]
  rw [add_events_apply]
  rw [if_neg (by rintro ⟨h, _⟩; exact absurd h (by decide))]
  rfl

/-- Witness for C6 (amended): the push-iff characterisation instantiated at
a concrete `add` starting from the empty detection data. -/
theorem add_event_pushed_iff_witness :
    CollisionDetectionData.empty.collisions_events (cxBallGce, cxWallGce) = none ∧
    ((CollisionDetectionData.empty.add cxWorld6 cxBallGce (.ball cxBall6) 10 11).collisions_events
        (cxBallGce, cxWallGce) ≠ none ↔
      (cxWallGce ∈ addCandidates CollisionDetectionData.empty
          (get_cell_range_for_movement (.ball cxBall6) 11) ∧
       ∃ t0 t1, solve_collision (.ball cxBall6) (fetch_collidable_copy cxWorld6 cxWallGce) =
         some (t0, t1) ∧ t1 ≥ 10 ∧ 11 ≥ t0)) :=
  ⟨rfl, add_event_pushed_iff cxWorld6 CollisionDetectionData.empty cxBallGce cxWallGce
    (.ball cxBall6) 10 11 rfl⟩

/-- Invariant of the spatial hash during a detection pass: every snapshot
found in a bucket was registered by a processed `add` whose collidable's
cell range covers that bucket. -/
def BucketsInv (next_time : ℝ)
    (processed : List (GenerationalCollisionEntity × Collidable))
    (cdd : CollisionDetectionData) : Prop :=
  ∀ cell e, e ∈ cdd.spatial_buckets cell →
    ∃ col, (e, col) ∈ processed ∧
      cell ∈ rangeCells (get_cell_range_for_movement col next_time)

/-- Invariant of the event queue during a detection pass: every queued pair
was registered by two processed `add`s whose cell ranges share a grid
cell. -/
def EventsInv (next_time : ℝ)
    (processed : List (GenerationalCollisionEntity × Collidable))
    (cdd : CollisionDetectionData) : Prop :=
  ∀ x y, cdd.collisions_events (x, y) ≠ none →
    ∃ cx cy, (x, cx) ∈ processed ∧ (y, cy) ∈ processed ∧
      ¬ Disjoint (rangeCells (get_cell_range_for_movement cx next_time))
        (rangeCells (get_cell_range_for_movement cy next_time))

theorem add_preserves_inv (world : World) (time next_time : ℝ)
    (processed : List (GenerationalCollisionEntity × Collidable))
    (cdd : CollisionDetectionData)
    (e : GenerationalCollisionEntity) (c : Collidable)
    (hB : BucketsInv next_time processed cdd)
    (hE : EventsInv next_time processed cdd) :
    BucketsInv next_time (processed ++ [(e, c)]) (cdd.add world e c time next_time) ∧
    EventsInv next_time (processed ++ [(e, c)]) (cdd.add world e c time next_time) := by
  constructor
  · intro cell e' he'
    rw [add_buckets_apply] at he'
    by_cases hc : cell ∈ rangeCells (get_cell_range_for_movement c next_time)
    · rw [if_pos hc] at he'
      rcases Finset.mem_insert.mp he' with rfl | hmem
      · exact ⟨c, by simp, hc⟩
      · obtain ⟨col, hcol, hcell⟩ := hB cell e' hmem
        exact ⟨col, by simp [hcol], hcell⟩
    · rw [if_neg hc] at he'
      obtain ⟨col, hcol, hcell⟩ := hB cell e' he'
      exact ⟨col, by simp [hcol], hcell⟩
  · intro x y hxy
    rw [add_events_apply] at hxy
    by_cases hcond : (x, y).1 = e ∧
        (x, y).2 ∈ addCandidates cdd (get_cell_range_for_movement c next_time)
    · obtain ⟨hx, hy⟩ := hcond
      dsimp only at hx hy
      obtain ⟨cell, hcell, hybucket⟩ := Finset.mem_sup.mp hy
      obtain ⟨cy, hcymem, hcyrange⟩ := hB cell y hybucket
      subst hx
      refine ⟨c, cy, by simp, by simp [hcymem], ?_⟩
      rw [Finset.not_disjoint_iff]
      exact ⟨cell, hcell, hcyrange⟩
    · rw [if_neg hcond] at hxy
      obtain ⟨cx, cy, hcx, hcy, hnd⟩ := hE x y hxy
      exact ⟨cx, cy, by simp [hcx], by simp [hcy], hnd⟩

theorem foldl_add_inv (world : World) (time next_time : ℝ) :
    ∀ (items : List (GenerationalCollisionEntity × Collidable))
      (processed : List (GenerationalCollisionEntity × Collidable))
      (cdd : CollisionDetectionData),
      BucketsInv next_time processed cdd → EventsInv next_time processed cdd →
      BucketsInv next_time (processed ++ items)
        (items.foldl (fun cdd it => cdd.add world it.1 it.2 time next_time) cdd) ∧
      EventsInv next_time (processed ++ items)
        (items.foldl (fun cdd it => cdd.add world it.1 it.2 time next_time) cdd)
  | [], processed, cdd, hB, hE => by
    simpa using ⟨hB, hE⟩
  | (e, c) :: rest, processed, cdd, hB, hE => by
    obtain ⟨hB', hE'⟩ := add_preserves_inv world time next_time processed cdd e c hB hE
    have hres := foldl_add_inv world time next_time rest (processed ++ [(e, c)])
      (cdd.add world e c time next_time) hB' hE'
    simpa [List.append_assoc] using hres

theorem nodup_keys_unique (l : List (GenerationalCollisionEntity × Collidable))
    (hnd : (l.map Prod.fst).Nodup) (k : GenerationalCollisionEntity)
    (v1 v2 : Collidable) (h1 : (k, v1) ∈ l) (h2 : (k, v2) ∈ l) : v1 = v2 := by
  induction l with
  | nil => cases h1
  | cons hd tl ih =>
    rw [List.map_cons, List.nodup_cons] at hnd
    obtain ⟨hhd, htl⟩ := hnd
    rcases List.mem_cons.mp h1 with he1 | hm1
    · rcases List.mem_cons.mp h2 with he2 | hm2
      · rw [← he1] at he2
        exact (Prod.mk.injEq _ _ _ _ ▸ he2.symm).2
      · exfalso
        apply hhd
        have hk : k ∈ tl.map Prod.fst := by
          simpa using List.mem_map_of_mem Prod.fst hm2
        rw [← he1]
        exact hk
    · rcases List.mem_cons.mp h2 with he2 | hm2
      · exfalso
        apply hhd
        have hk : k ∈ tl.map Prod.fst := by
          simpa using List.mem_map_of_mem Prod.fst hm1
        rw [← he2]
        exact hk
      · exact ih htl hm1 hm2

/-- C2: broad-phase soundness of the detection pass: two registered bodies
whose swept bounding boxes, converted to grid cell ranges, share no common
cell are never proposed as a candidate pair — no event keyed by that pair
(in either order) is ever pushed during `detect`, so the narrow-phase is
never acted on for them. -/
theorem broadphase_disjoint_no_candidate_pair (world : World)
    (items : List (GenerationalCollisionEntity × Collidable))
    (time next_time : ℝ) (a b : GenerationalCollisionEntity)
    (ca cb : Collidable)
    (hnd : (items.map Prod.fst).Nodup)
    (ha : (a, ca) ∈ items) (hb : (b, cb) ∈ items)
    (hdisj : Disjoint (rangeCells (get_cell_range_for_movement ca next_time))
      (rangeCells (get_cell_range_for_movement cb next_time))) :
    (detect world items time next_time).collisions_events (a, b) = none ∧
    (detect world items time next_time).collisions_events (b, a) = none := by
  have hBempty : BucketsInv next_time [] CollisionDetectionData.empty := by
    intro cell e he
    simp [CollisionDetectionData.empty] at he
  have hEempty : EventsInv next_time [] CollisionDetectionData.empty := by
    intro x y hxy
    simp [CollisionDetectionData.empty] at hxy
  have hinv := foldl_add_inv world time next_time items [] CollisionDetectionData.empty
    hBempty hEempty
  rw [List.nil_append] at hinv
  obtain ⟨_, hEfin⟩ := hinv
  constructor
  · by_contra hne
    obtain ⟨ca', cb', hca', hcb', hnotdisj⟩ := hEfin a b hne
    rw [nodup_keys_unique items hnd a ca' ca hca' ha,
      nodup_keys_unique items hnd b cb' cb hcb' hb] at hnotdisj
    exact hnotdisj hdisj
  · by_contra hne
    obtain ⟨cb', ca', hcb', hca', hnotdisj⟩ := hEfin b a hne
    rw [nodup_keys_unique items hnd b cb' cb hcb' hb,
      nodup_keys_unique items hnd a ca' ca hca' ha] at hnotdisj
    exact hnotdisj hdisj.symm

/-- Stationary witness ball far from `w2BallB` (cells (0..1)×(0..1)). -/
noncomputable def w2BallA : Ball := ⟨⟨10, 10⟩, ⟨0, 0⟩, 1, 0, 0⟩

/-- Stationary witness ball far from `w2BallA` (cells (4..5)×(4..5)). -/
noncomputable def w2BallB : Ball := ⟨⟨90, 90⟩, ⟨0, 0⟩, 1, 0, 0⟩

def w2GceA : GenerationalCollisionEntity := ⟨0, .ball, 0⟩

def w2GceB : GenerationalCollisionEntity := ⟨1, .ball, 0⟩

noncomputable def w2World : World :=
  ⟨fun n => if n = 0 then w2BallA else w2BallB, fun _ => Wall.mk ⟨0, 0⟩ ⟨1, 0⟩⟩

noncomputable def w2Items : List (GenerationalCollisionEntity × Collidable) :=
  [(w2GceA, .ball w2BallA), (w2GceB, .ball w2BallB)]

theorem w2BallA_range : get_cell_range_for_movement (.ball w2BallA) 1 = (0, 2, 0, 2) := by
  unfold get_cell_range_for_movement w2BallA
  norm_num [Vec2.inf, Vec2.sup, Vec2.add_scalar, EPSILON, CELL_SIZE, Prod.ext_iff]
  rw [show ⌈(1100001:ℝ)/2000000⌉ = 1 by
    rw [Int.ceil_eq_iff]
    · norm_num]
  norm_num

theorem w2BallB_range : get_cell_range_for_movement (.ball w2BallB) 1 = (4, 6, 4, 6) := by
  unfold get_cell_range_for_movement w2BallB
  norm_num [Vec2.inf, Vec2.sup, Vec2.add_scalar, EPSILON, CELL_SIZE, Prod.ext_iff]
  rw [show ⌈(9100001:ℝ)/2000000⌉ = 5 by
    rw [Int.ceil_eq_iff]
    · norm_num]
  norm_num

/-- Witness for C2: two far-apart stationary balls with disjoint cell ranges
produce no event in either key order during a concrete detection pass. -/
theorem broadphase_disjoint_no_candidate_pair_witness :
    (w2Items.map Prod.fst).Nodup ∧
    (w2GceA, Collidable.ball w2BallA) ∈ w2Items ∧
    (w2GceB, Collidable.ball w2BallB) ∈ w2Items ∧
    Disjoint (rangeCells (get_cell_range_for_movement (.ball w2BallA) 1))
      (rangeCells (get_cell_range_for_movement (.ball w2BallB) 1)) ∧
    ((detect w2World w2Items 0 1).collisions_events (w2GceA, w2GceB) = none ∧
     (detect w2World w2Items 0 1).collisions_events (w2GceB, w2GceA) = none) := by
  have hnd : (w2Items.map Prod.fst).Nodup := by
    show ([w2GceA, w2GceB]).Nodup
    decide
  have ha : (w2GceA, Collidable.ball w2BallA) ∈ w2Items := by
    unfold w2Items
    exact List.mem_cons_self _ _
  have hb : (w2GceB, Collidable.ball w2BallB) ∈ w2Items := by
    unfold w2Items
    exact List.mem_cons_of_mem _ (List.mem_cons_self _ _)
  have hdisj : Disjoint (rangeCells (get_cell_range_for_movement (.ball w2BallA) 1))
      (rangeCells (get_cell_range_for_movement (.ball w2BallB) 1)) := by
    rw [w2BallA_range, w2BallB_range]
    unfold rangeCells
    decide
  exact ⟨hnd, ha, hb, hdisj,
    broadphase_disjoint_no_candidate_pair w2World w2Items 0 1 w2GceA w2GceB
      (.ball w2BallA) (.ball w2BallB) hnd ha hb hdisj⟩
